import Mathlib

/-!
Shallow embedding of `src/simulation.c` (venam/cache-simulation), the core of a
set-associative cache simulator: address decomposition (`line_from_address`),
lookup (`in_cache`), insertion with eviction (`add_to_cache`) and the
trace-replay driver (`execute_mem`), together with theorems settling the
specification claims.

Modelling notes, each justified against the C source:
* Machine integers (`unsigned long`, `time_t`, counters) are modelled as `Nat`;
  none of the modelled computations can overflow for the configurations and
  traces considered, and shifts/masks are translated operator-for-operator
  (`&&&`, `>>>`, `<<<` on `Nat`).
* The compile-time constants of the missing `config.h` header
  (`BLOCKS_SIZE`, `BLOCKS_SIZE_N`, `NB_BLOCKS`, `NB_BLOCKS_N`, `ASSOCIATIVITY`,
  `PREFETCHING`) become fields of an explicit `Config` record; the spec fixes
  their meaning (block size and set count are powers of two, `_N` are their
  bit-widths), which theorems take as hypotheses where needed.
* Every call to `time(NULL)` is replaced by reading an external clock oracle
  `clock : Nat → Nat` at the index of the call (calls are counted in program
  order by the driver state field `tcalls`); a run of the C program corresponds
  to some non-decreasing oracle.
* The local variable `oldest` in `add_to_cache` is read uninitialized when no
  scanned line has `last_access` strictly below the `time(NULL)` sentinel; its
  indeterminate initial value is modelled as an explicit argument `uninit`,
  supplied by the driver from a garbage oracle `g : Nat → Nat` indexed by the
  count `acalls` of `add_to_cache` invocations.
* The `buff` field of `struct line` is never written with data nor read; it is
  dropped from the model. The `rw` character of a trace record never influences
  the simulation (only the `'\0'` terminator does), so a trace is a `List Nat`
  of addresses.
-/

namespace CacheSim

/-- Compile-time configuration from `config.h` (absent from the tree; the spec
defines the constants: `BLOCKS_SIZE = 2^BLOCKS_SIZE_N` bytes per block,
`NB_BLOCKS = 2^NB_BLOCKS_N` sets, `ASSOCIATIVITY` lines per set, `PREFETCHING`
flag). -/
structure Config where
  BLOCKS_SIZE_N : Nat
  NB_BLOCKS_N : Nat
  BLOCKS_SIZE : Nat
  NB_BLOCKS : Nat
  ASSOCIATIVITY : Nat
  PREFETCHING : Bool
deriving Repr, DecidableEq

/-- `struct line` (simulation.c:53): decomposed address fields plus the
`time_t last_access` stamp. The unused data buffer `buff` is not modelled. -/
structure Line where
  index : Nat
  offset : Nat
  tag : Nat
  last_access : Nat
deriving Repr, DecidableEq

/-- The all-zero line produced by `calloc` (simulation.c:189). -/
def zeroLine : Line := ⟨0, 0, 0, 0⟩

/-- `cache`: `NB_BLOCKS` sets of `ASSOCIATIVITY` lines each (outer list indexed
by set index, inner by way). -/
abbrev Cache := List (List Line)

/-- `line_from_address` (simulation.c:117-129): mask off the low
`BLOCKS_SIZE_N` bits as offset, the next `NB_BLOCKS_N` bits as index, the rest
as tag; stamp with the current `time(NULL)` value, passed here as `now`. -/
def line_from_address (cfg : Config) (now : Nat) (address : Nat) : Line :=
  { offset := address &&& ((1 <<< cfg.BLOCKS_SIZE_N) - 1)
    index := (address >>> cfg.BLOCKS_SIZE_N) &&& ((1 <<< cfg.NB_BLOCKS_N) - 1)
    tag := address >>> (cfg.BLOCKS_SIZE_N + cfg.NB_BLOCKS_N)
    last_access := now }

/-- `in_cache` (simulation.c:131-144): scan the ways of set `l.index`,
returning 1 as soon as some line's tag equals `l.tag`. No validity check exists
in the source: the comparison is against the raw tag field only. -/
def in_cache (cfg : Config) (c : Cache) (l : Line) : Bool :=
  (List.range cfg.ASSOCIATIVITY).any fun i =>
    ((c.getD l.index []).getD i zeroLine).tag == l.tag

/-- The scan loop of `add_to_cache` (simulation.c:153-168): walk the ways of a
set; on a line whose tag is `0x00` store `l` there and return; otherwise track
the smallest `last_access` seen so far (strictly below the running bound) in
`oldest`; after the loop overwrite way `oldest` with `l`. `remaining` is the
number of loop iterations left, `i` the current way. -/
def add_loop (l : Line) (s : List Line) : Nat → Nat → Nat → Nat → List Line
  | 0, _, oldest, _ => s.set oldest l
  | remaining + 1, i, oldest, oldest_time =>
    let li := s.getD i zeroLine
    if li.tag = 0 then s.set i l
    else if li.last_access < oldest_time then
      add_loop l s remaining (i + 1) i li.last_access
    else
      add_loop l s remaining (i + 1) oldest oldest_time

/-- `add_to_cache` (simulation.c:146-169): `oldest_time` is seeded with
`time(NULL)` (the `now` argument) and `oldest` is declared but never
initialized before the loop — its garbage stack value is the `uninit`
argument. -/
def add_to_cache (cfg : Config) (uninit : Nat) (now : Nat) (c : Cache) (l : Line) : Cache :=
  c.set l.index (add_loop l (c.getD l.index []) cfg.ASSOCIATIVITY 0 uninit now)

/-- Driver state of `execute_mem` (simulation.c:171-220): the cache and the two
counters, plus two bookkeeping counters of the model: `tcalls` counts
`time(NULL)` calls made so far (indexing the clock oracle) and `acalls` counts
`add_to_cache` calls made so far (indexing the garbage oracle, and witnessing
how many insertions were performed). -/
structure SimState where
  c : Cache
  hits : Nat
  misses : Nat
  tcalls : Nat
  acalls : Nat
deriving DecidableEq

/-- One iteration of the trace loop of `execute_mem` (simulation.c:196-211):
decompose the address; on a hit only `hits` is incremented; on a miss insert
the line, then, if `PREFETCHING`, decompose `address + BLOCKS_SIZE`, and if it
is absent insert it and count an extra miss; finally count the miss itself. -/
def step (cfg : Config) (clock g : Nat → Nat) (st : SimState) (address : Nat) : SimState :=
  let l := line_from_address cfg (clock st.tcalls) address
  if in_cache cfg st.c l then
    { st with hits := st.hits + 1, tcalls := st.tcalls + 1 }
  else
    let c1 := add_to_cache cfg (g st.acalls) (clock (st.tcalls + 1)) st.c l
    if cfg.PREFETCHING then
      let l2 := line_from_address cfg (clock (st.tcalls + 2)) (address + cfg.BLOCKS_SIZE)
      if in_cache cfg c1 l2 then
        { c := c1, hits := st.hits, misses := st.misses + 1,
          tcalls := st.tcalls + 3, acalls := st.acalls + 1 }
      else
        { c := add_to_cache cfg (g (st.acalls + 1)) (clock (st.tcalls + 3)) c1 l2,
          hits := st.hits, misses := st.misses + 2,
          tcalls := st.tcalls + 4, acalls := st.acalls + 2 }
    else
      { c := c1, hits := st.hits, misses := st.misses + 1,
        tcalls := st.tcalls + 2, acalls := st.acalls + 1 }

/-- The cache as `execute_mem` allocates it (simulation.c:182-194):
`NB_BLOCKS` sets of `ASSOCIATIVITY` `calloc`-zeroed lines. -/
def freshCache (cfg : Config) : Cache :=
  List.replicate cfg.NB_BLOCKS (List.replicate cfg.ASSOCIATIVITY zeroLine)

/-- Initial driver state: zero counters over the freshly allocated cache. -/
def initState (cfg : Config) : SimState :=
  { c := freshCache cfg, hits := 0, misses := 0, tcalls := 0, acalls := 0 }

/-- `execute_mem` (simulation.c:171-220) up to the final report: replay the
trace through `step` from the initial state. -/
def execute_mem (cfg : Config) (clock g : Nat → Nat) (trace : List Nat) : SimState :=
  trace.foldl (step cfg clock g) (initState cfg)

/-- The spec's reference configuration: 128-byte blocks (7 offset bits), 2 sets
(1 index bit), associativity 4, prefetch disabled. -/
def cfgSpec : Config := ⟨7, 1, 128, 2, 4, false⟩

/-- A minimal configuration exercising eviction: 1-byte blocks, 1 set,
associativity 2, prefetch disabled. -/
def cfgTwoWay : Config := ⟨0, 0, 1, 1, 2, false⟩

/-- A minimal configuration with prefetching enabled: 1-byte blocks, 1 set,
associativity 1. -/
def cfgPrefetch : Config := ⟨0, 0, 1, 1, 1, true⟩

/-- A strictly increasing clock oracle: second `k` at the `k`-th call. -/
def clkA : Nat → Nat := fun k => k

/-- A non-decreasing clock oracle whose seconds advance slowly, so that some
consecutive `time(NULL)` calls observe the same second. -/
def clkB : Nat → Nat := fun k => [1, 1, 2, 2, 2, 3, 3, 4, 5].getD k 5

/-- Garbage oracle that happens to leave every uninitialized `oldest` at 0. -/
def gZ : Nat → Nat := fun _ => 0

/-- `clk` is non-decreasing over its first `n` consulted values. -/
def clkMonoUpTo (clk : Nat → Nat) (n : Nat) : Bool :=
  (List.range n).all fun k => decide (clk k ≤ clk (k + 1))

/-- A full two-way set (both tags nonzero) whose lines share one
`last_access` stamp, equal to the current time `5`. -/
def fullTiedSet : Cache := [[⟨0, 0, 1, 5⟩, ⟨0, 0, 2, 5⟩]]

/-- Reading a replicated list at an in-range position yields the replicated
element. -/
lemma getD_replicate {α : Type} (x d : α) :
    ∀ (n i : Nat), i < n → (List.replicate n x).getD i d = x
  | _ + 1, 0, _ => rfl
  | n + 1, i + 1, h => getD_replicate x d n i (by omega)

/-- On a hit, `execute_mem`'s loop body only increments `hits` (and the model's
`time(NULL)` call counter): the cache, `misses` and the insertion counter are
untouched. -/
lemma step_hit (cfg : Config) (clock g : Nat → Nat) (st : SimState) (address : Nat)
    (h : in_cache cfg st.c (line_from_address cfg (clock st.tcalls) address) = true) :
    step cfg clock g st address =
      { st with hits := st.hits + 1, tcalls := st.tcalls + 1 } := by
  simp [step, h]

/-- Claim C1: with block_size 128, 2 sets, associativity 4 and prefetch off,
the trace accessing 0x0 twice ends with Hits = 2 and Misses = 0 (not the
Hits = 1, Misses = 1 the spec expects): the very first lookup of the tag-0
address already matches the calloc-zeroed lines. -/
theorem c1_zero_trace_counts :
    ((execute_mem cfgSpec clkA gZ [0, 0]).hits,
      (execute_mem cfgSpec clkA gZ [0, 0]).misses) = (2, 0) := by decide

/-- Claim C2: the code has no validity tracking and treats tag 0 as "empty":
(a) on the freshly allocated store, looking up address 0x0 (tag 0) already
reports a hit although nothing was ever inserted; (b) a deliberately inserted
tag-0 line is clobbered by the next insertion as if its way were free, even
though another way of the set is still unused. -/
theorem c2_tag_zero_not_tracked :
    in_cache cfgSpec (freshCache cfgSpec) (line_from_address cfgSpec 0 0) = true ∧
    add_to_cache cfgTwoWay 0 2
        (add_to_cache cfgTwoWay 0 1 (freshCache cfgTwoWay) ⟨0, 0, 0, 1⟩)
        ⟨0, 0, 7, 2⟩ =
      [[⟨0, 0, 7, 2⟩, zeroLine]] := by decide

/-- Claim C4: in a full set whose lines all share the current `last_access`,
the eviction scan never assigns `oldest`, so the victim is whatever the
uninitialized variable held: two runs differing only in that garbage value
replace different lines. -/
theorem c4_uninitialized_victim :
    add_to_cache cfgTwoWay 0 5 fullTiedSet ⟨0, 0, 3, 5⟩ ≠
      add_to_cache cfgTwoWay 1 5 fullTiedSet ⟨0, 0, 3, 5⟩ := by decide

/-- Claim C6: the final counters are not a function of configuration and trace
alone. Recency comes from `time(NULL)`: under two non-decreasing clock
schedules, the same configuration and trace yield (Hits, Misses) = (0, 5)
versus (1, 4), because a same-second tie changes which line is evicted. -/
theorem c6_clock_dependent_counts :
    clkMonoUpTo clkA 12 = true ∧ clkMonoUpTo clkB 12 = true ∧
    ((execute_mem cfgTwoWay clkA gZ [1, 2, 3, 4, 2]).hits,
      (execute_mem cfgTwoWay clkA gZ [1, 2, 3, 4, 2]).misses) = (0, 5) ∧
    ((execute_mem cfgTwoWay clkB gZ [1, 2, 3, 4, 2]).hits,
      (execute_mem cfgTwoWay clkB gZ [1, 2, 3, 4, 2]).misses) = (1, 4) := by decide

/-- Claim C3: immediately after allocation, any address whose tag field is 0
hits: the lookup matches a calloc-zeroed line, so the first access increments
only the hit counter, leaves the store unchanged and performs no insertion
(the insertion counter `acalls` stays 0). -/
theorem c3_fresh_tag_zero_hits (cfg : Config) (clock g : Nat → Nat) (a : Nat)
    (ha : 0 < cfg.ASSOCIATIVITY)
    (hnb : cfg.NB_BLOCKS = 2 ^ cfg.NB_BLOCKS_N)
    (htag : a >>> (cfg.BLOCKS_SIZE_N + cfg.NB_BLOCKS_N) = 0) :
    in_cache cfg (freshCache cfg) (line_from_address cfg (clock 0) a) = true ∧
    step cfg clock g (initState cfg) a =
      { initState cfg with hits := 1, tcalls := 1 } := by
  have hidx : (line_from_address cfg (clock 0) a).index < cfg.NB_BLOCKS := by
    simp only [line_from_address, Nat.one_shiftLeft, Nat.and_pow_two_sub_one_eq_mod]
    rw [hnb]
    exact Nat.mod_lt _ (Nat.two_pow_pos _)
  have hin : in_cache cfg (freshCache cfg) (line_from_address cfg (clock 0) a) = true := by
    rw [in_cache, List.any_eq_true]
    refine ⟨0, List.mem_range.mpr ha, ?_⟩
    rw [freshCache, getD_replicate _ _ _ _ hidx, getD_replicate _ _ _ _ ha]
    simp [zeroLine, line_from_address, htag]
  exact ⟨hin, step_hit cfg clock g (initState cfg) a hin⟩

/-- Claim C3 witness: the reference configuration with address 0x0 at time 0. -/
theorem c3_fresh_tag_zero_hits_witness :
    (0 < cfgSpec.ASSOCIATIVITY ∧ cfgSpec.NB_BLOCKS = 2 ^ cfgSpec.NB_BLOCKS_N ∧
      0 >>> (cfgSpec.BLOCKS_SIZE_N + cfgSpec.NB_BLOCKS_N) = 0) ∧
    in_cache cfgSpec (freshCache cfgSpec) (line_from_address cfgSpec (clkA 0) 0) = true ∧
    step cfgSpec clkA gZ (initState cfgSpec) 0 =
      { initState cfgSpec with hits := 1, tcalls := 1 } :=
  ⟨⟨by decide, by decide, by decide⟩,
    c3_fresh_tag_zero_hits cfgSpec clkA gZ 0 (by decide) (by decide) (by decide)⟩

/-- Claim C9: a trace access that hits leaves the entire cache store (every
line's fields) unchanged and does not insert; only the hit counter (and the
time-call count of the model) advances. -/
theorem c9_hit_frame (cfg : Config) (clock g : Nat → Nat) (st : SimState) (address : Nat)
    (h : in_cache cfg st.c (line_from_address cfg (clock st.tcalls) address) = true) :
    step cfg clock g st address =
      { st with hits := st.hits + 1, tcalls := st.tcalls + 1 } :=
  step_hit cfg clock g st address h

/-- Claim C9 witness: address 0x0 hits the fresh reference-configuration store
and the step only bumps the hit counter. -/
theorem c9_hit_frame_witness :
    in_cache cfgSpec (initState cfgSpec).c
        (line_from_address cfgSpec (clkA (initState cfgSpec).tcalls) 0) = true ∧
    step cfgSpec clkA gZ (initState cfgSpec) 0 =
      { initState cfgSpec with hits := 1, tcalls := 1 } :=
  ⟨by decide, c9_hit_frame cfgSpec clkA gZ (initState cfgSpec) 0 (by decide)⟩

/-- Claim C8: for every address, the decomposition computes exactly
offset = address AND (block_size - 1), index = (address >> offset_bits) AND
(num_sets - 1), tag = address >> (offset_bits + index_bits), where block_size
and num_sets are the powers of two with exponents offset_bits and index_bits;
the function is total on all of `Nat`, so any address is accepted without
truncation. -/
theorem c8_decompose_fields (cfg : Config) (now a : Nat)
    (hbs : cfg.BLOCKS_SIZE = 2 ^ cfg.BLOCKS_SIZE_N)
    (hnb : cfg.NB_BLOCKS = 2 ^ cfg.NB_BLOCKS_N) :
    (line_from_address cfg now a).offset = a &&& (cfg.BLOCKS_SIZE - 1) ∧
    (line_from_address cfg now a).index =
      (a >>> cfg.BLOCKS_SIZE_N) &&& (cfg.NB_BLOCKS - 1) ∧
    (line_from_address cfg now a).tag =
      a >>> (cfg.BLOCKS_SIZE_N + cfg.NB_BLOCKS_N) := by
  rw [hbs, hnb]
  simp [line_from_address, Nat.one_shiftLeft]

/-- Claim C8 witness: the reference configuration on address 0x123456789A. -/
theorem c8_decompose_fields_witness :
    (cfgSpec.BLOCKS_SIZE = 2 ^ cfgSpec.BLOCKS_SIZE_N ∧
      cfgSpec.NB_BLOCKS = 2 ^ cfgSpec.NB_BLOCKS_N) ∧
    (line_from_address cfgSpec 0 0x123456789A).offset =
      0x123456789A &&& (cfgSpec.BLOCKS_SIZE - 1) ∧
    (line_from_address cfgSpec 0 0x123456789A).index =
      (0x123456789A >>> cfgSpec.BLOCKS_SIZE_N) &&& (cfgSpec.NB_BLOCKS - 1) ∧
    (line_from_address cfgSpec 0 0x123456789A).tag =
      0x123456789A >>> (cfgSpec.BLOCKS_SIZE_N + cfgSpec.NB_BLOCKS_N) :=
  ⟨⟨by decide, by decide⟩, c8_decompose_fields cfgSpec 0 0x123456789A (by decide) (by decide)⟩

/-- With prefetching disabled, each loop iteration increments exactly one of
the two counters by one. -/
lemma foldl_step_counts (cfg : Config) (clock g : Nat → Nat)
    (hp : cfg.PREFETCHING = false) :
    ∀ (trace : List Nat) (st : SimState),
      (trace.foldl (step cfg clock g) st).hits +
          (trace.foldl (step cfg clock g) st).misses =
        st.hits + st.misses + trace.length := by
  intro trace
  induction trace with
  | nil => intro st; simp
  | cons a tl ih =>
    intro st
    have hstep : (step cfg clock g st a).hits + (step cfg clock g st a).misses =
        st.hits + st.misses + 1 := by
      by_cases hc : in_cache cfg st.c (line_from_address cfg (clock st.tcalls) a) = true
      · simp [step, hc]
        omega
      · rw [Bool.not_eq_true] at hc
        simp [step, hc, hp]
        omega
    rw [List.foldl_cons, ih (step cfg clock g st a), hstep, List.length_cons]
    omega

/-- Claim C10: with prefetching disabled, every processed trace record adds
exactly one to one of the two counters, so Hits + Misses equals the number of
records. -/
theorem c10_hits_plus_misses (cfg : Config) (clock g : Nat → Nat) (trace : List Nat)
    (hp : cfg.PREFETCHING = false) :
    (execute_mem cfg clock g trace).hits + (execute_mem cfg clock g trace).misses =
      trace.length := by
  simpa [execute_mem, initState] using foldl_step_counts cfg clock g hp trace (initState cfg)

/-- Claim C10 witness: the five-record eviction trace on the two-way
configuration ends with Hits + Misses = 5. -/
theorem c10_hits_plus_misses_witness :
    cfgTwoWay.PREFETCHING = false ∧
    (execute_mem cfgTwoWay clkA gZ [1, 2, 3, 4, 2]).hits +
        (execute_mem cfgTwoWay clkA gZ [1, 2, 3, 4, 2]).misses = 5 :=
  ⟨by decide, c10_hits_plus_misses cfgTwoWay clkA gZ [1, 2, 3, 4, 2] (by decide)⟩

/-- Claim C5: on a miss with prefetching enabled, the driver decomposes
`address + BLOCKS_SIZE` and looks it up (after the missed line was inserted);
if the prefetch target is absent it is inserted through the normal
`add_to_cache` path and exactly one extra miss is counted (two in total for
the record), otherwise no further insertion happens and only the one real miss
is counted; the insertion counter shows no further prefetch is triggered. -/
theorem c5_prefetch_one_block (cfg : Config) (clock g : Nat → Nat) (st : SimState)
    (address : Nat) (hp : cfg.PREFETCHING = true)
    (hm : in_cache cfg st.c (line_from_address cfg (clock st.tcalls) address) = false) :
    (step cfg clock g st address).hits = st.hits ∧
    (step cfg clock g st address).misses =
      st.misses +
        (if in_cache cfg
              (add_to_cache cfg (g st.acalls) (clock (st.tcalls + 1)) st.c
                (line_from_address cfg (clock st.tcalls) address))
              (line_from_address cfg (clock (st.tcalls + 2)) (address + cfg.BLOCKS_SIZE))
          then 1 else 2) ∧
    (step cfg clock g st address).c =
      (if in_cache cfg
            (add_to_cache cfg (g st.acalls) (clock (st.tcalls + 1)) st.c
              (line_from_address cfg (clock st.tcalls) address))
            (line_from_address cfg (clock (st.tcalls + 2)) (address + cfg.BLOCKS_SIZE))
        then
          add_to_cache cfg (g st.acalls) (clock (st.tcalls + 1)) st.c
            (line_from_address cfg (clock st.tcalls) address)
        else
          add_to_cache cfg (g (st.acalls + 1)) (clock (st.tcalls + 3))
            (add_to_cache cfg (g st.acalls) (clock (st.tcalls + 1)) st.c
              (line_from_address cfg (clock st.tcalls) address))
            (line_from_address cfg (clock (st.tcalls + 2)) (address + cfg.BLOCKS_SIZE))) ∧
    (step cfg clock g st address).acalls =
      st.acalls +
        (if in_cache cfg
              (add_to_cache cfg (g st.acalls) (clock (st.tcalls + 1)) st.c
                (line_from_address cfg (clock st.tcalls) address))
              (line_from_address cfg (clock (st.tcalls + 2)) (address + cfg.BLOCKS_SIZE))
          then 1 else 2) := by
  by_cases hpf : in_cache cfg
      (add_to_cache cfg (g st.acalls) (clock (st.tcalls + 1)) st.c
        (line_from_address cfg (clock st.tcalls) address))
      (line_from_address cfg (clock (st.tcalls + 2)) (address + cfg.BLOCKS_SIZE)) = true
  · simp [step, hm, hp, hpf]
  · rw [Bool.not_eq_true] at hpf
    simp [step, hm, hp, hpf]

/-- Claim C5 witness: a miss on address 1 with prefetching enabled inserts the
prefetch target 2 and counts two misses. -/
theorem c5_prefetch_one_block_witness :
    (cfgPrefetch.PREFETCHING = true ∧
      in_cache cfgPrefetch (initState cfgPrefetch).c
        (line_from_address cfgPrefetch (clkA (initState cfgPrefetch).tcalls) 1) = false) ∧
    (step cfgPrefetch clkA gZ (initState cfgPrefetch) 1).misses = 2 :=
  ⟨⟨rfl, by decide⟩, by
    have h := c5_prefetch_one_block cfgPrefetch clkA gZ (initState cfgPrefetch) 1 rfl
      (by decide)
    rw [h.2.1]
    decide⟩

/-- Claim C7: recombining the decomposed fields as
(tag << (offset_bits + index_bits)) | (index << offset_bits) | offset gives
back the original address, for every configuration and every address within
the 64-bit representable width. -/
theorem c7_decompose_roundtrip (cfg : Config) (now a : Nat) (_h : a < 2 ^ 64) :
    (line_from_address cfg now a).tag <<< (cfg.BLOCKS_SIZE_N + cfg.NB_BLOCKS_N) |||
        (line_from_address cfg now a).index <<< cfg.BLOCKS_SIZE_N |||
      (line_from_address cfg now a).offset = a := by
  apply Nat.eq_of_testBit_eq
  intro j
  simp only [line_from_address, Nat.one_shiftLeft, Nat.testBit_lor, Nat.testBit_shiftLeft,
    Nat.testBit_shiftRight, Nat.testBit_and, Nat.testBit_two_pow_sub_one, ge_iff_le]
  by_cases h1 : j < cfg.BLOCKS_SIZE_N
  · have hN : ¬ (cfg.BLOCKS_SIZE_N ≤ j) := by omega
    have hNM : ¬ (cfg.BLOCKS_SIZE_N + cfg.NB_BLOCKS_N ≤ j) := by omega
    simp [h1, hN, hNM]
  · by_cases h2 : j < cfg.BLOCKS_SIZE_N + cfg.NB_BLOCKS_N
    · have hN : cfg.BLOCKS_SIZE_N ≤ j := by omega
      have hNM : ¬ (cfg.BLOCKS_SIZE_N + cfg.NB_BLOCKS_N ≤ j) := by omega
      have e1 : cfg.BLOCKS_SIZE_N + (j - cfg.BLOCKS_SIZE_N) = j := by omega
      have e2 : j - cfg.BLOCKS_SIZE_N < cfg.NB_BLOCKS_N := by omega
      simp [h1, hN, hNM, e1, e2]
    · have hN : cfg.BLOCKS_SIZE_N ≤ j := by omega
      have hNM : cfg.BLOCKS_SIZE_N + cfg.NB_BLOCKS_N ≤ j := by omega
      have e1 : cfg.BLOCKS_SIZE_N + cfg.NB_BLOCKS_N + (j - (cfg.BLOCKS_SIZE_N + cfg.NB_BLOCKS_N)) = j := by
        omega
      have e2 : cfg.BLOCKS_SIZE_N + (j - cfg.BLOCKS_SIZE_N) = j := by omega
      have e3 : ¬ (j - cfg.BLOCKS_SIZE_N < cfg.NB_BLOCKS_N) := by omega
      simp [h1, hN, hNM, e1, e2, e3]

/-- Claim C7 witness: the reference configuration on address 0x123456789A. -/
theorem c7_decompose_roundtrip_witness :
    0x123456789A < 2 ^ 64 ∧
    (line_from_address cfgSpec 0 0x123456789A).tag <<<
          (cfgSpec.BLOCKS_SIZE_N + cfgSpec.NB_BLOCKS_N) |||
        (line_from_address cfgSpec 0 0x123456789A).index <<< cfgSpec.BLOCKS_SIZE_N |||
      (line_from_address cfgSpec 0 0x123456789A).offset = 0x123456789A :=
  ⟨by norm_num, c7_decompose_roundtrip cfgSpec 0 0x123456789A (by norm_num)⟩

end CacheSim
